import Mathlib

/-!
Verification of the block-device statistics collector
(`internal/collector/diskstats_linux.go`) of the pgscv repository.

The Go source is shallowly embedded:
- `io.Reader` line sources become `List String` (one element per scanned line);
- `float64` values become exact rationals `ℚ` (the raw diskstats tokens are
  decimal integers, for which `strconv.ParseFloat` is exact);
- the Go map `map[string][]float64` becomes an association list with
  last-write-wins insertion (`mapInsert`);
- `*regexp.Regexp` (nil-able) becomes `Option (String → Bool)`; the concrete
  default pattern is compiled into a derivative-based regex matcher;
- the filesystem (sysfs attribute files) becomes `fs : String → Option String`
  mapping a path to its content, `none` standing for an I/O error;
- `filepath.Glob` results become `Except String (List String)`;
- emission on the prometheus channel becomes a returned `List Sample`.
-/

/-- Whitespace recognized by Go `strings.Fields` (ASCII portion of
`unicode.IsSpace`; exotic unicode spaces do not occur in `/proc/diskstats`). -/
def goIsSpace (c : Char) : Bool :=
  c = ' ' || c = '\t' || c = '\n' || c = '\r' || c = '\x0b' || c = '\x0c'

/-- Accumulating splitter behind `fields`: splits a character list on runs of
whitespace, discarding empty fields, as `strings.Fields` does. -/
def fieldsAux : List Char → List Char → List (List Char)
  | [], acc => if acc.isEmpty then [] else [acc.reverse]
  | c :: cs, acc =>
    if goIsSpace c then
      if acc.isEmpty then fieldsAux cs [] else acc.reverse :: fieldsAux cs []
    else fieldsAux cs (c :: acc)

/-- Go `strings.Fields`: whitespace-tokenize a line. -/
def fields (s : String) : List String :=
  (fieldsAux s.data []).map List.asString

/-- Decimal digit test. -/
def isDigitChar (c : Char) : Bool := '0' ≤ c && c ≤ '9'

/-- Numeric value of a digit run (most significant first). -/
def digitsVal (l : List Char) : ℕ :=
  l.foldl (fun a c => 10 * a + (c.toNat - 48)) 0

/-- Model of `strconv.ParseFloat(s, 64)` returning an exact rational:
optional sign, then an integer part and an optional fractional part, at
least one digit in total.  (Exponent, hex-float, inf/nan forms of Go's
parser are not modelled; the diskstats tokens this program parses are plain
decimal integers.)  `none` models a parse error. -/
def parseFloat? (s : String) : Option ℚ :=
  let signed : ℤ × List Char :=
    match s.data with
    | '+' :: r => (1, r)
    | '-' :: r => (-1, r)
    | l => (1, l)
  let intPart := signed.2.takeWhile isDigitChar
  let rest := signed.2.dropWhile isDigitChar
  match rest with
  | [] =>
    if intPart.isEmpty then none
    else some (mkRat (signed.1 * digitsVal intPart) 1)
  | '.' :: fr =>
    if fr.all isDigitChar && !(intPart.isEmpty && fr.isEmpty) then
      some (mkRat (signed.1 * (digitsVal intPart * 10 ^ fr.length + digitsVal fr))
        (10 ^ fr.length))
    else none
  | _ => none

/-- The per-line numeric vector built by `parseDiskstats`: drop the first
three tokens (major/minor/device), parse the rest as floats, a failed parse
leaving the zero the slice was initialized with. -/
def lineStat (values : List String) : List ℚ :=
  (values.drop 3).map fun t => (parseFloat? t).getD 0

/-- Go map assignment `stats[device] = stat`: replace the existing binding
if present (last-write-wins), otherwise append. -/
def mapInsert (m : List (String × List ℚ)) (k : String) (v : List ℚ) :
    List (String × List ℚ) :=
  if m.any (fun p => p.1 = k) then
    m.map fun p => if p.1 = k then (k, v) else p
  else m ++ [(k, v)]

/-- Model of `ignore != nil && ignore.MatchString(device)`. -/
def matchOpt (ignore : Option (String → Bool)) (device : String) : Bool :=
  match ignore with
  | none => false
  | some p => p device

/-- The scan loop of `parseDiskstats`: process the remaining lines against
the accumulated stats map. -/
def parseDiskstatsGo (ignore : Option (String → Bool)) :
    List String → List (String × List ℚ) →
    Except String (List (String × List ℚ))
  | [], stats => .ok stats
  | line :: rest, stats =>
    let values := fields line
    if values.length ≠ 14 ∧ values.length ≠ 18 ∧ values.length ≠ 20 then
      .error ("invalid /proc/diskstats file, too few columns in line: " ++ line)
    else
      let device := values.getD 2 ""
      if matchOpt ignore device then
        parseDiskstatsGo ignore rest stats
      else
        parseDiskstatsGo ignore rest (mapInsert stats device (lineStat values))

/-- `parseDiskstats` reads the stats source and returns the device-keyed
counter map, rejecting the whole source on any line whose whitespace-token
count is not 14, 18 or 20. -/
def parseDiskstats (lines : List String) (ignore : Option (String → Bool)) :
    Except String (List (String × List ℚ)) :=
  parseDiskstatsGo ignore lines []

/-! ### A small regex matcher for the compiled default exclusion pattern -/

/-- Regular expressions over characters (enough for the ignored-devices
pattern): empty language, empty word, a character class, concatenation,
alternation, Kleene star. -/
inductive Regex : Type where
  | emp : Regex
  | eps : Regex
  | cls : (Char → Bool) → Regex
  | cat : Regex → Regex → Regex
  | alt : Regex → Regex → Regex
  | star : Regex → Regex

/-- Does the regex accept the empty word? -/
def Regex.nullable : Regex → Bool
  | .emp => false
  | .eps => true
  | .cls _ => false
  | .cat a b => a.nullable && b.nullable
  | .alt a b => a.nullable || b.nullable
  | .star _ => true

/-- Brzozowski derivative of a regex with respect to one character. -/
def Regex.deriv : Regex → Char → Regex
  | .emp, _ => .emp
  | .eps, _ => .emp
  | .cls p, c => if p c then .eps else .emp
  | .cat a b, c =>
    if a.nullable then .alt (.cat (a.deriv c) b) (b.deriv c)
    else .cat (a.deriv c) b
  | .alt a b, c => .alt (a.deriv c) (b.deriv c)
  | .star a, c => .cat (a.deriv c) (.star a)

/-- Whole-word matching by iterated derivatives. -/
def Regex.rmatch (r : Regex) (l : List Char) : Bool :=
  (l.foldl Regex.deriv r).nullable

/-- The regex accepting exactly one literal string. -/
def rstr (s : String) : Regex :=
  s.data.foldr (fun c r => Regex.cat (Regex.cls fun x => x = c) r) Regex.eps

/-- `\d` — a decimal digit. -/
def rdigit : Regex := Regex.cls isDigitChar

/-- `r+` — one or more repetitions. -/
def rplus (r : Regex) : Regex := Regex.cat r (Regex.star r)

/-- The source constant `ignoredDevicesPattern =
"^(ram|loop|fd|(h|s|v|xv)d[a-z]|nvme\d+n\d+p)\d+$"`, translated
structurally; the `^`/`$` anchors are realized by matching the whole
device-name string in `matchString`. -/
def ignoredDevicesRegex : Regex :=
  Regex.cat
    (Regex.alt (rstr "ram")
      (Regex.alt (rstr "loop")
        (Regex.alt (rstr "fd")
          (Regex.alt
            (Regex.cat
              (Regex.alt (rstr "h")
                (Regex.alt (rstr "s") (Regex.alt (rstr "v") (rstr "xv"))))
              (Regex.cat (rstr "d") (Regex.cls fun c => 'a' ≤ c && c ≤ 'z')))
            (Regex.cat (rstr "nvme")
              (Regex.cat (rplus rdigit)
                (Regex.cat (rstr "n")
                  (Regex.cat (rplus rdigit) (rstr "p")))))))))
    (rplus rdigit)

/-- `MatchString` of the compiled default pattern: the pattern is anchored
on both sides, so it holds of a device name iff the whole name is in the
pattern's language. -/
def matchString (s : String) : Bool :=
  ignoredDevicesRegex.rmatch s.data

/-! ### Metric descriptors and sample emission -/

/-- Prometheus value kinds used by this collector. -/
inductive ValueType : Type where
  | counter : ValueType
  | gauge : ValueType
deriving DecidableEq

/-- Modelled from the spec: `MetricDescriptor` — "{name, semantic kind
(counter|gauge), label schema, unit-conversion factor}".  The repository's
`typedDesc` struct and its `mustNewConstMetric` method live outside the
given source file; the name is the fully-qualified prometheus name built by
`BuildFQName`, and `factor` is the unit-conversion factor, `0` (the Go zero
value, meaning "no factor configured") when absent. -/
structure typedDesc : Type where
  name : String
  valueType : ValueType
  factor : ℚ := 0

/-- One emitted metric sample: descriptor name, value kind, label values in
schema order, numeric value. -/
structure Sample : Type where
  name : String
  valueType : ValueType
  labels : List String
  value : ℚ
deriving DecidableEq

/-- Modelled from the spec: `typedDesc.mustNewConstMetric` scales the raw
value by the descriptor's unit-conversion factor when one is configured
(bytes: "raw sector count × sector-size constant"; times: "raw milliseconds
× 0.001 to seconds") and emits one sample carrying the label values. -/
def typedDesc.mustNewConstMetric (d : typedDesc) (v : ℚ) (labels : List String) :
    Sample :=
  { name := d.name, valueType := d.valueType, labels := labels,
    value := if d.factor = 0 then v else v * d.factor }

/-- The collector struct: the compiled exclusion pattern plus the
descriptor table built once by `NewDiskstatsCollector`. -/
structure diskstatsCollector : Type where
  ignoredDevicesPattern : Option (String → Bool)
  completed : typedDesc
  merged : typedDesc
  bytes : typedDesc
  times : typedDesc
  ionow : typedDesc
  iotime : typedDesc
  iotimeweighted : typedDesc
  storages : typedDesc

/-- The Go constant `diskSectorSize = 512`. -/
def diskSectorSize : ℚ := 512

/-- The float literal `.001` of the time-conversion factors, as the exact
rational one-thousandth (`mkRat` keeps the definition kernel-computable). -/
def milli : ℚ := mkRat 1 1000

/-- `NewDiskstatsCollector`: the descriptor table exactly as built in the
source (names via `BuildFQName`, counter/gauge kinds, factors 512 for bytes
and .001 for the three time families; the injected constant prometheus
labels do not affect any verified property and are not modelled). -/
def NewDiskstatsCollector : diskstatsCollector :=
  { ignoredDevicesPattern := some matchString
    completed := { name := "node_disk_completed_total", valueType := .counter }
    merged := { name := "node_disk_merged_total", valueType := .counter }
    bytes := { name := "node_disk_bytes_total", valueType := .counter,
               factor := diskSectorSize }
    times := { name := "node_disk_time_seconds_total", valueType := .counter,
               factor := milli }
    ionow := { name := "node_disk_io_now", valueType := .gauge }
    iotime := { name := "node_disk_io_time_seconds_total", valueType := .counter,
                factor := milli }
    iotimeweighted := { name := "node_disk_io_time_weighted_seconds_total",
                        valueType := .counter, factor := milli }
    storages := { name := "node_system_storage_info", valueType := .gauge } }

/-- The per-device body of `Update`'s emission loop: the three
length-guarded blocks of `ch <- ...` sends, in source order. -/
def deviceSamples (c : diskstatsCollector) (dev : String) (stat : List ℚ) :
    List Sample :=
  (if 11 ≤ stat.length then
    [c.completed.mustNewConstMetric (stat.getD 0 0) [dev, "reads"],
     c.merged.mustNewConstMetric (stat.getD 1 0) [dev, "reads"],
     c.bytes.mustNewConstMetric (stat.getD 2 0) [dev, "reads"],
     c.times.mustNewConstMetric (stat.getD 3 0) [dev, "reads"],
     c.completed.mustNewConstMetric (stat.getD 4 0) [dev, "writes"],
     c.merged.mustNewConstMetric (stat.getD 5 0) [dev, "writes"],
     c.bytes.mustNewConstMetric (stat.getD 6 0) [dev, "writes"],
     c.times.mustNewConstMetric (stat.getD 7 0) [dev, "writes"],
     c.ionow.mustNewConstMetric (stat.getD 8 0) [dev],
     c.iotime.mustNewConstMetric (stat.getD 9 0) [dev],
     c.iotimeweighted.mustNewConstMetric (stat.getD 10 0) [dev]]
   else []) ++
  (if 15 ≤ stat.length then
    [c.completed.mustNewConstMetric (stat.getD 11 0) [dev, "discards"],
     c.merged.mustNewConstMetric (stat.getD 12 0) [dev, "discards"],
     c.bytes.mustNewConstMetric (stat.getD 13 0) [dev, "discards"],
     c.times.mustNewConstMetric (stat.getD 14 0) [dev, "discards"]]
   else []) ++
  (if 17 ≤ stat.length then
    [c.completed.mustNewConstMetric (stat.getD 15 0) [dev, "flush"],
     c.times.mustNewConstMetric (stat.getD 16 0) [dev, "flush"]]
   else [])

/-! ### Sysfs property reader -/

/-- `storageDeviceProperties` from the source. -/
structure storageDeviceProperties : Type where
  device : String
  rotational : String
  scheduler : String
deriving DecidableEq

/-- Accumulating splitter behind `lastComponent` (`strings.Split` on `/`,
keeping empty fields). -/
def splitSlash : List Char → List Char → List (List Char)
  | [], acc => [acc.reverse]
  | c :: cs, acc =>
    if c = '/' then acc.reverse :: splitSlash cs [] else splitSlash cs (c :: acc)

/-- `parts := strings.Split(devpath, "/"); device := parts[len(parts)-1]`. -/
def lastComponent (s : String) : String :=
  ((splitSlash s.data []).getLastD []).asString

/-- `bufio.Reader.ReadLine` on a whole file content: an empty content is an
EOF error (`none`); otherwise the first line, with the end-of-line bytes
(`\n`, and a preceding `\r` if present) dropped. -/
def firstLine? (content : String) : Option String :=
  if content.data.isEmpty then none
  else
    let l := content.data.takeWhile fun c => c ≠ '\n'
    some (if l.getLast? = some '\r' then l.dropLast.asString else l.asString)

/-- `getDeviceRotational`: read `queue/rotational` under the device path
(`fs` models the filesystem, `none` an I/O error), take the first line, and
accept exactly `"0"` or `"1"`. -/
def getDeviceRotational (fs : String → Option String) (devpath : String) :
    Except String String :=
  match fs (devpath ++ "/queue/rotational") with
  | none => .error "read failed"
  | some content =>
    match firstLine? content with
    | none => .error "EOF"
    | some line =>
      if line = "0" ∨ line = "1" then .ok line
      else .error ("unknown rotational " ++ line)

/-- The character class `[[a-z-]` of the scheduler-extraction pattern
`[[a-z-]+]|none`: an opening bracket, a lowercase letter, or a hyphen. -/
def schedClassChar (c : Char) : Bool :=
  c = '[' || ('a' ≤ c && c ≤ 'z') || c = '-'

/-- Try to match `[[a-z-]+]|none` at the start of `l`, first alternative
preferred, `+` greedy.  Because `']'` is not in the class, the greedy
maximal class-run is the only candidate for the `+`. -/
def schedMatchAt (l : List Char) : Option (List Char) :=
  let run := l.takeWhile schedClassChar
  if !run.isEmpty && (l.dropWhile schedClassChar).headD ' ' = ']' then
    some (run ++ [']'])
  else if l.take 4 = "none".data then some "none".data
  else none

/-- `regexp.Find` for the pattern `[[a-z-]+]|none`: leftmost-first match. -/
def schedFind : List Char → Option (List Char)
  | [] => none
  | c :: cs =>
    match schedMatchAt (c :: cs) with
    | some m => some m
    | none => schedFind cs

/-- A bracket character, the cutset of `bytes.Trim(sched, "[]")`. -/
def isBracketChar (c : Char) : Bool := c = '[' || c = ']'

/-- `bytes.Trim(sched, "[]")`: strip leading and trailing brackets. -/
def trimBrackets (l : List Char) : List Char :=
  ((l.dropWhile isBracketChar).reverse.dropWhile isBracketChar).reverse

/-- `getDeviceScheduler`: read the first line of `queue/scheduler`, find
the first substring matching `[[a-z-]+]|none`, and strip the brackets;
no match is an error. -/
def getDeviceScheduler (fs : String → Option String) (devpath : String) :
    Except String String :=
  match fs (devpath ++ "/queue/scheduler") with
  | none => .error "read failed"
  | some content =>
    match firstLine? content with
    | none => .error "EOF"
    | some line =>
      match schedFind line.data with
      | some sched => .ok (trimBrackets sched).asString
      | none => .error ("unknown scheduler: " ++ line)

/-- The per-device loop of `getStorageProperties`: filter by the exclusion
pattern, then read both properties, a failure of either skipping just that
device. -/
def collectStorages (ignore : Option (String → Bool))
    (fs : String → Option String) : List String → List storageDeviceProperties
  | [] => []
  | devpath :: rest =>
    let device := lastComponent devpath
    if matchOpt ignore device then collectStorages ignore fs rest
    else
      match getDeviceRotational fs devpath with
      | .error _ => collectStorages ignore fs rest
      | .ok rotational =>
        match getDeviceScheduler fs devpath with
        | .error _ => collectStorages ignore fs rest
        | .ok scheduler =>
          { device := device, rotational := rotational, scheduler := scheduler } ::
            collectStorages ignore fs rest

/-- `getStorageProperties`: `glob` is the outcome of `filepath.Glob` on the
`/sys/block/*` path (its error is the only error this function returns);
each matched directory contributes its properties unless excluded or
unreadable. -/
def getStorageProperties (glob : Except String (List String))
    (ignore : Option (String → Bool)) (fs : String → Option String) :
    Except String (List storageDeviceProperties) :=
  match glob with
  | .error e => .error e
  | .ok dirs => .ok (collectStorages ignore fs dirs)

/-! ### The orchestrator -/

/-- `Update`: fetch and parse the counters source (`diskstatsFile` is the
content of `/proc/diskstats` as scanned lines, `none` an open failure —
fatal, wrapped); emit per-device samples; then collect storage properties
(`glob`/`fs` model the sysfs side), a failure there being non-fatal and
merely dropping the storage-info gauges.  The returned list is everything
sent on the prometheus channel, in send order. -/
def Update (c : diskstatsCollector) (diskstatsFile : Option (List String))
    (glob : Except String (List String)) (fs : String → Option String) :
    Except String (List Sample) :=
  match diskstatsFile with
  | none => .error "get diskstats failed: open error"
  | some lines =>
    match parseDiskstats lines c.ignoredDevicesPattern with
    | .error e => .error ("get diskstats failed: " ++ e)
    | .ok stats =>
      let counters := (stats.map fun p => deviceSamples c p.1 p.2).flatten
      match getStorageProperties glob c.ignoredDevicesPattern fs with
      | .error _ => .ok counters
      | .ok storages =>
        .ok (counters ++ storages.map fun s =>
          c.storages.mustNewConstMetric 1 [s.device, s.rotational, s.scheduler])

/-! ### Helper lemmas -/

/-- The accepted row widths of the parser's shape check. -/
def validWidth (n : ℕ) : Prop := n = 14 ∨ n = 18 ∨ n = 20

instance (n : ℕ) : Decidable (validWidth n) := by
  unfold validWidth; infer_instance

instance {ε α : Type} [DecidableEq ε] [DecidableEq α] :
    DecidableEq (Except ε α) := fun a b =>
  match a, b with
  | .error e, .error f =>
    if h : e = f then .isTrue (by rw [h]) else .isFalse (by simp [h])
  | .error _, .ok _ => .isFalse (by simp)
  | .ok _, .error _ => .isFalse (by simp)
  | .ok x, .ok y =>
    if h : x = y then .isTrue (by rw [h]) else .isFalse (by simp [h])

/-- The collector as built by the constructor, with the exclusion pattern
generalized (the source always installs the compiled default pattern; the
pattern slot is the only input that varies between the two claims' uses). -/
def collectorWith (ign : Option (String → Bool)) : diskstatsCollector :=
  { NewDiskstatsCollector with ignoredDevicesPattern := ign }

/-- The `/sys/block` filesystem of the C10 witness: one device `sda`,
rotational `0`, scheduler `none`. -/
def fsSda : String → Option String := fun p =>
  if p = "/sys/block/sda/queue/rotational" then some "0\n"
  else if p = "/sys/block/sda/queue/scheduler" then some "none\n"
  else none

/-- Scheduler file content for the C6 counterexample: a class-run followed
by `]` but with no opening bracket anywhere and no `none` literal. -/
def fsAbc : String → Option String := fun p =>
  if p = "/sys/block/sda/queue/scheduler" then some "abc]" else none

/-- The two-device sysfs tree of the C7 witness: `sda` has an invalid
rotational attribute, `sdb` is fully valid. -/
def fsMix : String → Option String := fun p =>
  if p = "/sys/block/sda/queue/rotational" then some "bad"
  else if p = "/sys/block/sda/queue/scheduler" then some "none"
  else if p = "/sys/block/sdb/queue/rotational" then some "0"
  else if p = "/sys/block/sdb/queue/scheduler" then some "none"
  else none

theorem lineStat_length (values : List String) :
    (lineStat values).length = values.length - 3 := by
  simp [lineStat]

theorem mem_mapInsert {m : List (String × List ℚ)} {k : String} {v : List ℚ}
    {p : String × List ℚ} (h : p ∈ mapInsert m k v) : p ∈ m ∨ p = (k, v) := by
  unfold mapInsert at h
  split at h
  · rcases List.mem_map.mp h with ⟨q, hq, hqe⟩
    by_cases hk : q.1 = k
    · rw [if_pos hk] at hqe
      exact Or.inr hqe.symm
    · rw [if_neg hk] at hqe
      exact Or.inl (hqe ▸ hq)
  · rcases List.mem_append.mp h with h1 | h1
    · exact Or.inl h1
    · exact Or.inr (List.mem_singleton.mp h1)

theorem mem_keys_mapInsert {m : List (String × List ℚ)} {k : String}
    {v : List ℚ} {a : String} :
    a ∈ (mapInsert m k v).map Prod.fst ↔ a ∈ m.map Prod.fst ∨ a = k := by
  unfold mapInsert
  split
  case isTrue h =>
    rw [List.any_eq_true] at h
    constructor
    · intro ha
      rcases List.mem_map.mp ha with ⟨q, hq, hqe⟩
      rcases List.mem_map.mp hq with ⟨p, hp, hpe⟩
      by_cases hk : p.1 = k
      · right; rw [← hqe, ← hpe, if_pos hk]
      · left; rw [← hqe, ← hpe, if_neg hk]
        exact List.mem_map.mpr ⟨p, hp, rfl⟩
    · rintro (ha | rfl)
      · rcases List.mem_map.mp ha with ⟨p, hp, hpe⟩
        refine List.mem_map.mpr ⟨if p.1 = k then (k, v) else p, List.mem_map.mpr ⟨p, hp, rfl⟩, ?_⟩
        by_cases hk : p.1 = k
        · rw [if_pos hk, ← hpe, hk]
        · rw [if_neg hk, hpe]
      · rcases h with ⟨p, hp, hpk⟩
        refine List.mem_map.mpr ⟨(a, v), List.mem_map.mpr ⟨p, hp, ?_⟩, rfl⟩
        rw [if_pos (by exact of_decide_eq_true hpk)]
  case isFalse h =>
    rw [List.map_append, List.mem_append]
    simp only [List.map_cons, List.map_nil, List.mem_singleton]

theorem parseDiskstatsGo_ok_iff (ign : Option (String → Bool))
    (lines : List String) :
    ∀ acc, (∃ m, parseDiskstatsGo ign lines acc = .ok m) ↔
      ∀ l ∈ lines, validWidth (fields l).length := by
  induction lines with
  | nil =>
    intro acc
    simp [parseDiskstatsGo]
  | cons line rest ih =>
    intro acc
    simp only [parseDiskstatsGo]
    by_cases h : (fields line).length ≠ 14 ∧ (fields line).length ≠ 18 ∧
        (fields line).length ≠ 20
    · rw [if_pos h]
      constructor
      · rintro ⟨m, hm⟩
        cases hm
      · intro hall
        have hv := hall line (List.mem_cons_self _ _)
        unfold validWidth at hv
        tauto
    · rw [if_neg h]
      have hv : validWidth (fields line).length := by
        unfold validWidth
        tauto
      by_cases hmt : matchOpt ign ((fields line).getD 2 "") = true
      · rw [if_pos hmt, ih acc]
        simp only [List.forall_mem_cons]
        exact ⟨fun h2 => ⟨hv, h2⟩, fun h2 => h2.2⟩
      · rw [if_neg hmt, ih (mapInsert acc ((fields line).getD 2 "") (lineStat (fields line)))]
        simp only [List.forall_mem_cons]
        exact ⟨fun h2 => ⟨hv, h2⟩, fun h2 => h2.2⟩

theorem parseDiskstatsGo_mem (ign : Option (String → Bool))
    (lines : List String) :
    ∀ acc m, parseDiskstatsGo ign lines acc = .ok m →
      ∀ p ∈ m, p ∈ acc ∨ ∃ l ∈ lines, validWidth (fields l).length ∧
        p.1 = (fields l).getD 2 "" ∧ p.2 = lineStat (fields l) := by
  induction lines with
  | nil =>
    intro acc m hm p hp
    cases hm
    exact Or.inl hp
  | cons line rest ih =>
    intro acc m hm p hp
    simp only [parseDiskstatsGo] at hm
    by_cases h : (fields line).length ≠ 14 ∧ (fields line).length ≠ 18 ∧
        (fields line).length ≠ 20
    · rw [if_pos h] at hm
      cases hm
    · rw [if_neg h] at hm
      have hv : validWidth (fields line).length := by
        unfold validWidth
        tauto
      by_cases hmt : matchOpt ign ((fields line).getD 2 "") = true
      · rw [if_pos hmt] at hm
        rcases ih acc m hm p hp with hacc | ⟨l, hl, hrest⟩
        · exact Or.inl hacc
        · exact Or.inr ⟨l, List.mem_cons_of_mem _ hl, hrest⟩
      · rw [if_neg hmt] at hm
        rcases ih _ m hm p hp with hacc | ⟨l, hl, hrest⟩
        · rcases mem_mapInsert hacc with hacc' | rfl
          · exact Or.inl hacc'
          · exact Or.inr ⟨line, List.mem_cons_self _ _, hv, rfl, rfl⟩
        · exact Or.inr ⟨l, List.mem_cons_of_mem _ hl, hrest⟩

theorem parseDiskstatsGo_excluded (pat : String → Bool) (dev : String)
    (hpat : pat dev = true) (lines : List String) :
    ∀ acc m, dev ∉ acc.map Prod.fst →
      parseDiskstatsGo (some pat) lines acc = .ok m →
      dev ∉ m.map Prod.fst := by
  induction lines with
  | nil =>
    intro acc m hacc hm
    cases hm
    exact hacc
  | cons line rest ih =>
    intro acc m hacc hm
    simp only [parseDiskstatsGo] at hm
    by_cases h : (fields line).length ≠ 14 ∧ (fields line).length ≠ 18 ∧
        (fields line).length ≠ 20
    · rw [if_pos h] at hm
      cases hm
    · rw [if_neg h] at hm
      by_cases hmt : matchOpt (some pat) ((fields line).getD 2 "") = true
      · rw [if_pos hmt] at hm
        exact ih acc m hacc hm
      · rw [if_neg hmt] at hm
        refine ih _ m ?_ hm
        intro hmem
        rcases mem_keys_mapInsert.mp hmem with hmem' | rfl
        · exact hacc hmem'
        · exact hmt (by simpa [matchOpt] using hpat)

theorem parseDiskstatsGo_key_mono (ign : Option (String → Bool)) (dev : String)
    (lines : List String) :
    ∀ acc m, dev ∈ acc.map Prod.fst →
      parseDiskstatsGo ign lines acc = .ok m →
      dev ∈ m.map Prod.fst := by
  induction lines with
  | nil =>
    intro acc m hacc hm
    cases hm
    exact hacc
  | cons line rest ih =>
    intro acc m hacc hm
    simp only [parseDiskstatsGo] at hm
    by_cases h : (fields line).length ≠ 14 ∧ (fields line).length ≠ 18 ∧
        (fields line).length ≠ 20
    · rw [if_pos h] at hm
      cases hm
    · rw [if_neg h] at hm
      by_cases hmt : matchOpt ign ((fields line).getD 2 "") = true
      · rw [if_pos hmt] at hm
        exact ih acc m hacc hm
      · rw [if_neg hmt] at hm
        exact ih _ m (mem_keys_mapInsert.mpr (Or.inl hacc)) hm

theorem parseDiskstatsGo_key_of_line (ign : Option (String → Bool))
    (line : String) (lines : List String) (hline : line ∈ lines)
    (hnm : matchOpt ign ((fields line).getD 2 "") = false) :
    ∀ acc m, parseDiskstatsGo ign lines acc = .ok m →
      (fields line).getD 2 "" ∈ m.map Prod.fst := by
  induction lines with
  | nil =>
    cases hline
  | cons l rest ih =>
    intro acc m hm
    simp only [parseDiskstatsGo] at hm
    by_cases h : (fields l).length ≠ 14 ∧ (fields l).length ≠ 18 ∧
        (fields l).length ≠ 20
    · rw [if_pos h] at hm
      cases hm
    · rw [if_neg h] at hm
      rcases List.mem_cons.mp hline with rfl | hline'
      · rw [if_neg (by rw [hnm]; exact Bool.false_ne_true)] at hm
        exact parseDiskstatsGo_key_mono ign _ rest _ m
          (mem_keys_mapInsert.mpr (Or.inr rfl)) hm
      · by_cases hmt : matchOpt ign ((fields l).getD 2 "") = true
        · rw [if_pos hmt] at hm
          exact ih hline' acc m hm
        · rw [if_neg hmt] at hm
          exact ih hline' _ m hm

theorem collectStorages_mem (ign : Option (String → Bool))
    (fs : String → Option String) :
    ∀ (dirs : List String) (p : storageDeviceProperties),
      p ∈ collectStorages ign fs dirs →
      ∃ devpath ∈ dirs, p.device = lastComponent devpath ∧
        matchOpt ign (lastComponent devpath) = false ∧
        getDeviceRotational fs devpath = .ok p.rotational ∧
        getDeviceScheduler fs devpath = .ok p.scheduler := by
  intro dirs
  induction dirs with
  | nil =>
    intro p hp
    cases hp
  | cons d rest ih =>
    intro p hp
    rw [collectStorages] at hp
    by_cases hmt : matchOpt ign (lastComponent d) = true
    · rw [if_pos hmt] at hp
      rcases ih p hp with ⟨dp, hdp, hrest⟩
      exact ⟨dp, List.mem_cons_of_mem _ hdp, hrest⟩
    · rw [if_neg hmt] at hp
      cases hrot : getDeviceRotational fs d with
      | error e =>
        rw [hrot] at hp
        rcases ih p hp with ⟨dp, hdp, hrest⟩
        exact ⟨dp, List.mem_cons_of_mem _ hdp, hrest⟩
      | ok rot =>
        rw [hrot] at hp
        cases hsched : getDeviceScheduler fs d with
        | error e =>
          rw [hsched] at hp
          rcases ih p hp with ⟨dp, hdp, hrest⟩
          exact ⟨dp, List.mem_cons_of_mem _ hdp, hrest⟩
        | ok sched =>
          rw [hsched] at hp
          rcases List.mem_cons.mp hp with rfl | hp'
          · exact ⟨d, List.mem_cons_self _ _, rfl,
              Bool.eq_false_iff.mpr hmt, hrot, hsched⟩
          · rcases ih p hp' with ⟨dp, hdp, hrest⟩
            exact ⟨dp, List.mem_cons_of_mem _ hdp, hrest⟩

/-- A non-excluded device path whose two attribute reads both succeed
contributes its property record to the walk's output. -/
theorem collectStorages_mem_of (ign : Option (String → Bool))
    (fs : String → Option String) :
    ∀ (dirs : List String) (devpath : String), devpath ∈ dirs →
      matchOpt ign (lastComponent devpath) = false →
      ∀ rot sched, getDeviceRotational fs devpath = .ok rot →
        getDeviceScheduler fs devpath = .ok sched →
        ({ device := lastComponent devpath, rotational := rot,
           scheduler := sched } : storageDeviceProperties) ∈
          collectStorages ign fs dirs := by
  intro dirs
  induction dirs with
  | nil =>
    intro devpath h
    cases h
  | cons d rest ih =>
    intro devpath hmem hnm rot sched hrot hsched
    rw [collectStorages]
    rcases List.mem_cons.mp hmem with rfl | hmem'
    · rw [if_neg (by rw [hnm]; exact Bool.false_ne_true), hrot, hsched]
      exact List.mem_cons_self _ _
    · have htail := ih devpath hmem' hnm rot sched hrot hsched
      by_cases hmt : matchOpt ign (lastComponent d) = true
      · rw [if_pos hmt]
        exact htail
      · rw [if_neg hmt]
        cases hrot' : getDeviceRotational fs d with
        | error e => exact htail
        | ok rot' =>
          cases hsched' : getDeviceScheduler fs d with
          | error e => exact htail
          | ok sched' => exact List.mem_cons_of_mem _ htail

/-! ### Claims -/

/-- C1: for every input to the line parser, parsing succeeds iff every line
has a whitespace-token count in {14, 18, 20}; on success each retained
device maps to a vector of length (width − 3) of its line's width; any line
of any other width makes the whole parse return an error (so no result
map). -/
theorem C1_parse_shape (lines : List String) (ignore : Option (String → Bool)) :
    ((∃ m, parseDiskstats lines ignore = .ok m) ↔
      ∀ l ∈ lines, validWidth (fields l).length)
    ∧ (∀ m, parseDiskstats lines ignore = .ok m →
        ∀ p ∈ m, ∃ l ∈ lines, validWidth (fields l).length ∧
          p.2.length = (fields l).length - 3)
    ∧ (∀ l ∈ lines, ¬ validWidth (fields l).length →
        ∃ e, parseDiskstats lines ignore = .error e) := by
  refine ⟨parseDiskstatsGo_ok_iff ignore lines [], ?_, ?_⟩
  · intro m hm p hp
    rcases parseDiskstatsGo_mem ignore lines [] m hm p hp with hacc | ⟨l, hl, hv, _, hstat⟩
    · cases hacc
    · exact ⟨l, hl, hv, by rw [hstat, lineStat_length]⟩
  · intro l hl hbad
    cases he : parseDiskstats lines ignore with
    | error e => exact ⟨e, rfl⟩
    | ok m => exact absurd ((parseDiskstatsGo_ok_iff ignore lines []).mp ⟨m, he⟩ l hl) hbad

/-- Witness for C1 at a concrete 14-token source and a concrete 6-token
source. -/
theorem C1_parse_shape_witness :
    (∃ m, parseDiskstats ["8 0 sda 1 2 3 4 5 6 7 8 9 10 11"] none = .ok m)
    ∧ (∃ e, parseDiskstats ["8 0 sda 1 2 3"] none = .error e) :=
  ⟨(C1_parse_shape ["8 0 sda 1 2 3 4 5 6 7 8 9 10 11"] none).1.mpr (by decide),
   (C1_parse_shape ["8 0 sda 1 2 3"] none).2.2 "8 0 sda 1 2 3"
     (List.mem_singleton.mpr rfl) (by decide)⟩

/-- C3: for every exclusion pattern and every device name the pattern
matches, the device is a key neither of the counter map produced by the
line parser nor of the property sequence produced by the sysfs property
reader, both paths being given the same pattern. -/
theorem C3_filter_both_paths (pat : String → Bool) (dev : String)
    (hpat : pat dev = true) :
    (∀ lines m, parseDiskstats lines (some pat) = .ok m →
      dev ∉ m.map Prod.fst)
    ∧ (∀ dirs fs props, getStorageProperties (.ok dirs) (some pat) fs = .ok props →
      dev ∉ props.map storageDeviceProperties.device) := by
  constructor
  · intro lines m hm
    exact parseDiskstatsGo_excluded pat dev hpat lines [] m (by simp) hm
  · intro dirs fs props hprops hmem
    have hcol : props = collectStorages (some pat) fs dirs := by
      simpa [getStorageProperties] using hprops.symm
    subst hcol
    rcases List.mem_map.mp hmem with ⟨p, hp, hpd⟩
    rcases collectStorages_mem (some pat) fs dirs p hp with
      ⟨dp, _, hdev, hnm, _, _⟩
    rw [← hpd, hdev] at hpat
    rw [show matchOpt (some pat) (lastComponent dp) = pat (lastComponent dp) from rfl]
      at hnm
    rw [hpat] at hnm
    cases hnm

/-- Witness for C3 with the default pattern and device `loop0`: the
end-to-end parse of a two-line source drops `loop0`, and the property walk
of a `/sys/block` listing with a `loop0` directory drops it too. -/
theorem C3_filter_both_paths_witness :
    ("loop0" ∉ ([("sda", ([1,2,3,4,5,6,7,8,9,10,11] : List ℚ))].map Prod.fst))
    ∧ ("loop0" ∉ (([] : List storageDeviceProperties).map
        storageDeviceProperties.device)) :=
  ⟨(C3_filter_both_paths matchString "loop0" (by decide)).1
      ["8 0 sda 1 2 3 4 5 6 7 8 9 10 11", "7 0 loop0 0 0 0 0 0 0 0 0 0 0 0"]
      _ (by rfl),
   (C3_filter_both_paths matchString "loop0" (by decide)).2
      ["/sys/block/loop0"] (fun _ => none) _ (by rfl)⟩

/-- C2: per-device emission counts of the orchestrator's loop body: nothing
for a vector shorter than 11; exactly 11 non-discard/non-flush (read,
write, gauge) samples once the length reaches 11; exactly 4 discard-typed
samples once it reaches 15; exactly 2 flush-typed samples once it reaches
17.  The `type` label value sits at position 1 of each sample's label
list (the gauges have no position 1, so `getD` yields `""`). -/
theorem C2_emission_counts (dev : String) (stat : List ℚ) :
    (stat.length < 11 → deviceSamples NewDiskstatsCollector dev stat = [])
    ∧ (11 ≤ stat.length →
        ((deviceSamples NewDiskstatsCollector dev stat).filter fun s =>
          s.labels.getD 1 "" ≠ "discards" ∧ s.labels.getD 1 "" ≠ "flush").length = 11)
    ∧ ((deviceSamples NewDiskstatsCollector dev stat).filter fun s =>
        s.labels.getD 1 "" = "discards").length = (if 15 ≤ stat.length then 4 else 0)
    ∧ ((deviceSamples NewDiskstatsCollector dev stat).filter fun s =>
        s.labels.getD 1 "" = "flush").length = (if 17 ≤ stat.length then 2 else 0) := by
  by_cases h11 : 11 ≤ stat.length
  · by_cases h15 : 15 ≤ stat.length
    · by_cases h17 : 17 ≤ stat.length
      · refine ⟨fun hlt => absurd h11 (by omega), fun _ => ?_, ?_, ?_⟩ <;>
          simp [deviceSamples, h11, h15, h17, typedDesc.mustNewConstMetric,
            List.filter, NewDiskstatsCollector]
      · refine ⟨fun hlt => absurd h11 (by omega), fun _ => ?_, ?_, ?_⟩ <;>
          simp [deviceSamples, h11, h15, h17, typedDesc.mustNewConstMetric,
            List.filter, NewDiskstatsCollector]
    · have h17 : ¬ 17 ≤ stat.length := by omega
      refine ⟨fun hlt => absurd h11 (by omega), fun _ => ?_, ?_, ?_⟩ <;>
        simp [deviceSamples, h11, h15, h17, typedDesc.mustNewConstMetric,
          List.filter, NewDiskstatsCollector]
  · have h15 : ¬ 15 ≤ stat.length := by omega
    have h17 : ¬ 17 ≤ stat.length := by omega
    refine ⟨fun _ => ?_, fun h => absurd h h11, ?_, ?_⟩ <;>
      simp [deviceSamples, h11, h15, h17, List.filter]

/-- Witness for C2 on vectors of lengths 11 and 17 for device `sda`. -/
theorem C2_emission_counts_witness :
    ((deviceSamples NewDiskstatsCollector "sda"
        [0,0,0,0,0,0,0,0,0,0,0]).filter fun s =>
      s.labels.getD 1 "" ≠ "discards" ∧ s.labels.getD 1 "" ≠ "flush").length = 11
    ∧ ((deviceSamples NewDiskstatsCollector "sda"
        [0,0,0,0,0,0,0,0,0,0,0,0,0,0,0,0,0]).filter fun s =>
      s.labels.getD 1 "" = "flush").length = (if 17 ≤ (17:ℕ) then 2 else 0) :=
  ⟨(C2_emission_counts "sda" [0,0,0,0,0,0,0,0,0,0,0]).2.1 (by decide),
   by simpa using (C2_emission_counts "sda"
     [0,0,0,0,0,0,0,0,0,0,0,0,0,0,0,0,0]).2.2.2⟩

theorem milli_eq : milli = 1 / 1000 := by
  rw [milli, Rat.mkRat_eq_divInt, Rat.divInt_eq_div]
  norm_num

theorem bytes_value (v : ℚ) (ls : List String) :
    (NewDiskstatsCollector.bytes.mustNewConstMetric v ls).value = v * 512 := by
  rw [typedDesc.mustNewConstMetric]
  norm_num [NewDiskstatsCollector, diskSectorSize]

theorem times_value (v : ℚ) (ls : List String) :
    (NewDiskstatsCollector.times.mustNewConstMetric v ls).value = v * (1 / 1000) := by
  rw [typedDesc.mustNewConstMetric]
  norm_num [NewDiskstatsCollector, milli_eq]

theorem iotime_value (v : ℚ) (ls : List String) :
    (NewDiskstatsCollector.iotime.mustNewConstMetric v ls).value = v * (1 / 1000) := by
  rw [typedDesc.mustNewConstMetric]
  norm_num [NewDiskstatsCollector, milli_eq]

theorem iotimeweighted_value (v : ℚ) (ls : List String) :
    (NewDiskstatsCollector.iotimeweighted.mustNewConstMetric v ls).value =
      v * (1 / 1000) := by
  rw [typedDesc.mustNewConstMetric]
  norm_num [NewDiskstatsCollector, milli_eq]

/-- C5: every sample of the byte family carries a raw sector count of the
vector times exactly 512; every sample of the three time families carries a
raw millisecond count of the vector times exactly 0.001 (= 1/1000, the
float literal `.001` being modelled as the exact rational). -/
theorem C5_unit_conversion (dev : String) (stat : List ℚ) (s : Sample)
    (hs : s ∈ deviceSamples NewDiskstatsCollector dev stat) :
    (s.name = "node_disk_bytes_total" →
      ∃ i, (i = 2 ∨ i = 6 ∨ i = 13) ∧ s.value = stat.getD i 0 * 512)
    ∧ ((s.name = "node_disk_time_seconds_total" ∨
        s.name = "node_disk_io_time_seconds_total" ∨
        s.name = "node_disk_io_time_weighted_seconds_total") →
      ∃ i, (i = 3 ∨ i = 7 ∨ i = 9 ∨ i = 10 ∨ i = 14 ∨ i = 16) ∧
        s.value = stat.getD i 0 * (1 / 1000)) := by
  unfold deviceSamples at hs
  have hname : ∀ (d : typedDesc) (v : ℚ) (ls : List String),
      (d.mustNewConstMetric v ls).name = d.name := fun _ _ _ => rfl
  rcases List.mem_append.mp hs with hs1 | hs3
  · rcases List.mem_append.mp hs1 with hs1 | hs2
    · split at hs1
      case isFalse => cases hs1
      case isTrue =>
        simp only [List.mem_cons, List.not_mem_nil, or_false] at hs1
        rcases hs1 with rfl | rfl | rfl | rfl | rfl | rfl | rfl | rfl | rfl | rfl | rfl
        · exact ⟨fun hn => absurd hn (by rw [hname]; decide),
                 fun hn => absurd hn (by rw [hname]; decide)⟩
        · exact ⟨fun hn => absurd hn (by rw [hname]; decide),
                 fun hn => absurd hn (by rw [hname]; decide)⟩
        · exact ⟨fun _ => ⟨2, Or.inl rfl, bytes_value _ _⟩,
                 fun hn => absurd hn (by rw [hname]; decide)⟩
        · exact ⟨fun hn => absurd hn (by rw [hname]; decide),
                 fun _ => ⟨3, Or.inl rfl, times_value _ _⟩⟩
        · exact ⟨fun hn => absurd hn (by rw [hname]; decide),
                 fun hn => absurd hn (by rw [hname]; decide)⟩
        · exact ⟨fun hn => absurd hn (by rw [hname]; decide),
                 fun hn => absurd hn (by rw [hname]; decide)⟩
        · exact ⟨fun _ => ⟨6, Or.inr (Or.inl rfl), bytes_value _ _⟩,
                 fun hn => absurd hn (by rw [hname]; decide)⟩
        · exact ⟨fun hn => absurd hn (by rw [hname]; decide),
                 fun _ => ⟨7, Or.inr (Or.inl rfl), times_value _ _⟩⟩
        · exact ⟨fun hn => absurd hn (by rw [hname]; decide),
                 fun hn => absurd hn (by rw [hname]; decide)⟩
        · exact ⟨fun hn => absurd hn (by rw [hname]; decide),
                 fun _ => ⟨9, Or.inr (Or.inr (Or.inl rfl)), iotime_value _ _⟩⟩
        · exact ⟨fun hn => absurd hn (by rw [hname]; decide),
                 fun _ => ⟨10, Or.inr (Or.inr (Or.inr (Or.inl rfl))),
                   iotimeweighted_value _ _⟩⟩
    · split at hs2
      case isFalse => cases hs2
      case isTrue =>
        simp only [List.mem_cons, List.not_mem_nil, or_false] at hs2
        rcases hs2 with rfl | rfl | rfl | rfl
        · exact ⟨fun hn => absurd hn (by rw [hname]; decide),
                 fun hn => absurd hn (by rw [hname]; decide)⟩
        · exact ⟨fun hn => absurd hn (by rw [hname]; decide),
                 fun hn => absurd hn (by rw [hname]; decide)⟩
        · exact ⟨fun _ => ⟨13, Or.inr (Or.inr rfl), bytes_value _ _⟩,
                 fun hn => absurd hn (by rw [hname]; decide)⟩
        · exact ⟨fun hn => absurd hn (by rw [hname]; decide),
                 fun _ => ⟨14, Or.inr (Or.inr (Or.inr (Or.inr (Or.inl rfl)))),
                   times_value _ _⟩⟩
  · split at hs3
    case isFalse => cases hs3
    case isTrue =>
      simp only [List.mem_cons, List.not_mem_nil, or_false] at hs3
      rcases hs3 with rfl | rfl
      · exact ⟨fun hn => absurd hn (by rw [hname]; decide),
               fun hn => absurd hn (by rw [hname]; decide)⟩
      · exact ⟨fun hn => absurd hn (by rw [hname]; decide),
               fun _ => ⟨16, Or.inr (Or.inr (Or.inr (Or.inr (Or.inr rfl)))),
                 times_value _ _⟩⟩

/-- Every sample the per-device loop emits carries one of the seven disk
descriptor names (never the storage-info name). -/
theorem deviceSamples_names (c : diskstatsCollector) (dev : String)
    (stat : List ℚ) :
    ∀ s ∈ deviceSamples c dev stat,
      s.name = c.completed.name ∨ s.name = c.merged.name ∨
        s.name = c.bytes.name ∨ s.name = c.times.name ∨
        s.name = c.ionow.name ∨ s.name = c.iotime.name ∨
        s.name = c.iotimeweighted.name := by
  intro s hs
  unfold deviceSamples at hs
  rcases List.mem_append.mp hs with hs1 | hs3
  · rcases List.mem_append.mp hs1 with hs1 | hs2
    · split at hs1
      case isFalse => cases hs1
      case isTrue =>
        simp only [List.mem_cons, List.not_mem_nil, or_false] at hs1
        rcases hs1 with rfl | rfl | rfl | rfl | rfl | rfl | rfl | rfl | rfl | rfl | rfl <;>
          simp [typedDesc.mustNewConstMetric]
    · split at hs2
      case isFalse => cases hs2
      case isTrue =>
        simp only [List.mem_cons, List.not_mem_nil, or_false] at hs2
        rcases hs2 with rfl | rfl | rfl | rfl <;>
          simp [typedDesc.mustNewConstMetric]
  · split at hs3
    case isFalse => cases hs3
    case isTrue =>
      simp only [List.mem_cons, List.not_mem_nil, or_false] at hs3
      rcases hs3 with rfl | rfl <;>
        simp [typedDesc.mustNewConstMetric]

/-- C4: a counters failure (unreadable source, or a parse error) makes
`Update` return an error, and the error result carries no samples; a
property-collection (glob) failure leaves `Update` successful with exactly
the counter samples and nothing named `node_system_storage_info`. -/
theorem C4_error_semantics (ign : Option (String → Bool)) (lines : List String)
    (glob : Except String (List String)) (fs : String → Option String) :
    (∃ e, Update (collectorWith ign) none glob fs = .error e)
    ∧ (∀ e, parseDiskstats lines ign = .error e →
        Update (collectorWith ign) (some lines) glob fs =
          .error ("get diskstats failed: " ++ e))
    ∧ (∀ stats ge, parseDiskstats lines ign = .ok stats →
        Update (collectorWith ign) (some lines) (.error ge) fs =
          .ok ((stats.map fun p =>
            deviceSamples (collectorWith ign) p.1 p.2).flatten)
        ∧ ∀ s ∈ (stats.map fun p =>
            deviceSamples (collectorWith ign) p.1 p.2).flatten,
            s.name ≠ "node_system_storage_info") := by
  refine ⟨⟨"get diskstats failed: open error", rfl⟩, ?_, ?_⟩
  · intro e he
    simp [Update, collectorWith, he]
  · intro stats ge hstats
    constructor
    · simp [Update, collectorWith, hstats, getStorageProperties]
    · intro s hsmem
      rcases List.mem_flatten.mp hsmem with ⟨l, hl, hsl⟩
      rcases List.mem_map.mp hl with ⟨p, _, rfl⟩
      rcases deviceSamples_names (collectorWith ign) p.1 p.2 s hsl with
        h | h | h | h | h | h | h <;> rw [h] <;>
        simp [collectorWith, NewDiskstatsCollector]

/-- Witness for C4: unreadable source, a 4-token line, and a failed glob
over a one-device source. -/
theorem C4_error_semantics_witness :
    (∃ e, Update (collectorWith none) none (.ok []) (fun _ => none) = .error e)
    ∧ (Update (collectorWith none) (some ["bad line in here"]) (.ok [])
        (fun _ => none) =
      .error ("get diskstats failed: " ++
        "invalid /proc/diskstats file, too few columns in line: bad line in here"))
    ∧ (Update (collectorWith none) (some ["8 0 sda 1 2 3 4 5 6 7 8 9 10 11"])
        (.error "glob failed") (fun _ => none) =
      .ok ((([("sda", ([1,2,3,4,5,6,7,8,9,10,11] : List ℚ))]).map fun p =>
        deviceSamples (collectorWith none) p.1 p.2).flatten)) :=
  ⟨(C4_error_semantics none [] (.ok []) (fun _ => none)).1,
   (C4_error_semantics none ["bad line in here"] (.ok []) (fun _ => none)).2.1
     "invalid /proc/diskstats file, too few columns in line: bad line in here"
     (by rfl),
   ((C4_error_semantics none ["8 0 sda 1 2 3 4 5 6 7 8 9 10 11"]
       (.ok []) (fun _ => none)).2.2
     [("sda", [1,2,3,4,5,6,7,8,9,10,11])] "glob failed" (by rfl)).1⟩

/-- Unfolding of `Update` on a readable source and a successful glob. -/
theorem Update_some_ok (c : diskstatsCollector) (lines : List String)
    (dirs : List String) (fs : String → Option String) :
    Update c (some lines) (.ok dirs) fs =
      match parseDiskstats lines c.ignoredDevicesPattern with
      | .error e => .error ("get diskstats failed: " ++ e)
      | .ok stats =>
        .ok (((stats.map fun p => deviceSamples c p.1 p.2).flatten) ++
          (collectStorages c.ignoredDevicesPattern fs dirs).map fun s =>
            c.storages.mustNewConstMetric 1
              [s.device, s.rotational, s.scheduler]) := rfl

theorem collectorWith_pattern (ign : Option (String → Bool)) :
    (collectorWith ign).ignoredDevicesPattern = ign := rfl

/-- C10: on a successful scrape, every emitted sample named
`node_system_storage_info` has numeric value exactly 1, and each device of
the property sequence contributes such a sample whose three labels are its
device name, rotational flag and scheduler — the information lives in the
labels, never in the value. -/
theorem C10_storage_info_value (ign : Option (String → Bool))
    (lines : List String) (dirs : List String) (fs : String → Option String)
    (samples : List Sample)
    (hup : Update (collectorWith ign) (some lines) (.ok dirs) fs = .ok samples) :
    (∀ s ∈ samples, s.name = "node_system_storage_info" → s.value = 1)
    ∧ (∀ p ∈ collectStorages ign fs dirs,
        ({ name := "node_system_storage_info", valueType := .gauge,
           labels := [p.device, p.rotational, p.scheduler],
           value := 1 } : Sample) ∈ samples) := by
  cases hparse : parseDiskstats lines ign with
  | error e =>
    rw [Update_some_ok] at hup
    simp only [collectorWith_pattern, hparse] at hup
    cases hup
  | ok stats =>
    rw [Update_some_ok] at hup
    simp only [collectorWith_pattern, hparse] at hup
    rw [Except.ok.injEq] at hup
    subst hup
    constructor
    · intro s hsmem hsname
      rcases List.mem_append.mp hsmem with hc | hst
      · rcases List.mem_flatten.mp hc with ⟨l, hl, hsl⟩
        rcases List.mem_map.mp hl with ⟨p, _, rfl⟩
        rcases deviceSamples_names (collectorWith ign) p.1 p.2 s hsl with
          h | h | h | h | h | h | h <;> rw [h] at hsname <;>
          simp [collectorWith, NewDiskstatsCollector] at hsname
      · rcases List.mem_map.mp hst with ⟨q, _, rfl⟩
        simp [typedDesc.mustNewConstMetric, collectorWith, NewDiskstatsCollector]
    · intro p hp
      refine List.mem_append.mpr (Or.inr (List.mem_map.mpr ⟨p, hp, ?_⟩))
      simp [typedDesc.mustNewConstMetric, collectorWith, NewDiskstatsCollector]

/-- Witness for C10: a scrape over an empty counters source and the
one-device sysfs tree emits the storage-info sample with value 1. -/
theorem C10_storage_info_value_witness :
    ({ name := "node_system_storage_info", valueType := .gauge,
       labels := ["sda", "0", "none"], value := 1 } : Sample) ∈
      [({ name := "node_system_storage_info", valueType := .gauge,
          labels := ["sda", "0", "none"], value := 1 } : Sample)] :=
  (C10_storage_info_value (some matchString) [] ["/sys/block/sda"] fsSda _
    (by rfl)).2 ⟨"sda", "0", "none"⟩ (by decide)

/-- Witness for C5 at the reads-bytes sample of a concrete vector. -/
theorem C5_unit_conversion_witness :
    ∃ i, (i = 2 ∨ i = 6 ∨ i = 13) ∧
      (NewDiskstatsCollector.bytes.mustNewConstMetric
        (([1,2,3,4,5,6,7,8,9,10,11] : List ℚ).getD 2 0) ["sda", "reads"]).value =
        ([1,2,3,4,5,6,7,8,9,10,11] : List ℚ).getD i 0 * 512 :=
  (C5_unit_conversion "sda" [1,2,3,4,5,6,7,8,9,10,11] _
    (by simp [deviceSamples])).1 rfl

/-- C8: the default exclusion pattern drops ram/loop/floppy devices and the
numeric-suffixed partitions of hd/sd/vd/xvd disks and of NVMe namespaces,
while retaining the whole-disk and namespace devices themselves; a two-line
source listing `sda` and `loop0` parses, under the default pattern, to a
counter map containing only `sda`. -/
theorem C8_default_pattern :
    matchString "ram0" = true ∧ matchString "ram15" = true ∧
    matchString "loop0" = true ∧ matchString "loop7" = true ∧
    matchString "fd0" = true ∧
    matchString "hda1" = true ∧ matchString "sda1" = true ∧
    matchString "sda12" = true ∧ matchString "vda1" = true ∧
    matchString "xvda1" = true ∧
    matchString "nvme0n1p1" = true ∧ matchString "nvme10n2p3" = true ∧
    matchString "sda" = false ∧ matchString "hdb" = false ∧
    matchString "vdc" = false ∧ matchString "xvda" = false ∧
    matchString "nvme0n1" = false ∧
    parseDiskstats ["8 0 sda 1 2 3 4 5 6 7 8 9 10 11",
        "7 0 loop0 0 0 0 0 0 0 0 0 0 0 0"] (some matchString) =
      .ok [("sda", [1,2,3,4,5,6,7,8,9,10,11])] := by
  decide

/-- C9: a token of a valid-width line that fails float parsing leaves a zero
at exactly its vector position, every other position keeps its parsed value,
the device's row stays in the map, and the parse as a whole succeeds (the
device not being filter-excluded, exclusion being the separate concern of
C3). -/
theorem C9_field_corruption (tokens : List String) (i : ℕ)
    (hw : validWidth tokens.length) (hi : i + 3 < tokens.length)
    (hbad : parseFloat? (tokens.getD (i + 3) "") = none) :
    (lineStat tokens).getD i 1 = 0
    ∧ (∀ j v, j + 3 < tokens.length →
        parseFloat? (tokens.getD (j + 3) "") = some v →
        (lineStat tokens).getD j 1 = v)
    ∧ (∀ ign lines line, line ∈ lines → fields line = tokens →
        (∀ l ∈ lines, validWidth (fields l).length) →
        matchOpt ign (tokens.getD 2 "") = false →
        ∃ m, parseDiskstats lines ign = .ok m ∧
          tokens.getD 2 "" ∈ m.map Prod.fst) := by
  have hlen : (lineStat tokens).length = tokens.length - 3 := lineStat_length tokens
  have hgetD : ∀ j, j + 3 < tokens.length →
      (lineStat tokens).getD j 1 = (parseFloat? (tokens.getD (j + 3) "")).getD 0 := by
    intro j hj
    rw [List.getD_eq_getElem?_getD, lineStat, List.getElem?_map,
      List.getElem?_drop, show 3 + j = j + 3 from by omega,
      (List.getElem?_eq_some_getElem_iff tokens (j + 3) (by omega)).mpr trivial,
      List.getD_eq_getElem _ _ (show j + 3 < tokens.length from by omega)]
    rfl
  refine ⟨?_, ?_, ?_⟩
  · rw [hgetD i hi, hbad]
    rfl
  · intro j v hj hgood
    rw [hgetD j hj, hgood]
    rfl
  · intro ign lines line hmem hfields hall hnm
    obtain ⟨m, hm⟩ := (parseDiskstatsGo_ok_iff ign lines []).mpr hall
    refine ⟨m, hm, ?_⟩
    have hk := parseDiskstatsGo_key_of_line ign line lines hmem
      (by rw [hfields]; exact hnm) [] m hm
    rwa [hfields] at hk

/-- Witness for C9: the unparsable token `x` in field 3 of a 14-token line
becomes 0, the following field keeps its value 2, and the row survives. -/
theorem C9_field_corruption_witness :
    ((lineStat ["8","0","sda","x","2","3","4","5","6","7","8","9","10","11"]).getD 0 1 = 0)
    ∧ ((lineStat ["8","0","sda","x","2","3","4","5","6","7","8","9","10","11"]).getD 1 1 = 2)
    ∧ (∃ m, parseDiskstats ["8 0 sda x 2 3 4 5 6 7 8 9 10 11"] none = .ok m ∧
        "sda" ∈ m.map Prod.fst) :=
  ⟨(C9_field_corruption ["8","0","sda","x","2","3","4","5","6","7","8","9","10","11"]
      0 (by decide) (by decide) (by decide)).1,
   (C9_field_corruption ["8","0","sda","x","2","3","4","5","6","7","8","9","10","11"]
      0 (by decide) (by decide) (by decide)).2.1 1 2 (by decide) (by decide),
   (C9_field_corruption ["8","0","sda","x","2","3","4","5","6","7","8","9","10","11"]
      0 (by decide) (by decide) (by decide)).2.2 none
      ["8 0 sda x 2 3 4 5 6 7 8 9 10 11"] "8 0 sda x 2 3 4 5 6 7 8 9 10 11"
      (List.mem_singleton.mpr rfl) (by decide) (by decide) (by rfl)⟩

/-- A successful match of `[[a-z-]+]|none` at the start of `l` means `l`
begins with a nonempty class-run followed by `]`, or with the literal
`none`. -/
theorem schedMatchAt_some {l m : List Char} (h : schedMatchAt l = some m) :
    (∃ run post, l = run ++ ']' :: post ∧ run ≠ [] ∧
      ∀ c ∈ run, schedClassChar c = true)
    ∨ (∃ post, l = "none".data ++ post) := by
  unfold schedMatchAt at h
  by_cases hc : (!(l.takeWhile schedClassChar).isEmpty &&
      decide ((l.dropWhile schedClassChar).headD ' ' = ']')) = true
  · have hc' := hc
    rw [Bool.and_eq_true] at hc'
    rcases hc' with ⟨hne, hhd⟩
    have hhd' : (l.dropWhile schedClassChar).headD ' ' = ']' :=
      of_decide_eq_true hhd
    left
    cases hdw : l.dropWhile schedClassChar with
    | nil =>
      rw [hdw] at hhd'
      exact absurd hhd' (by decide)
    | cons d ds =>
      rw [hdw] at hhd'
      simp only [List.headD_cons] at hhd'
      refine ⟨l.takeWhile schedClassChar, ds, ?_, ?_, ?_⟩
      · conv_lhs => rw [← List.takeWhile_append_dropWhile schedClassChar l]
        rw [hdw, hhd']
      · intro hemp
        rw [hemp] at hne
        cases hne
      · intro c hcm
        exact List.mem_takeWhile_imp hcm
  · rw [if_neg hc] at h
    by_cases h4 : l.take 4 = "none".data
    · right
      refine ⟨l.drop 4, ?_⟩
      conv_lhs => rw [← List.take_append_drop 4 l]
      rw [h4]
    · rw [if_neg h4] at h
      cases h

/-- A successful `Find` of `[[a-z-]+]|none` anywhere in `l` means `l`
contains a nonempty class-run immediately followed by `]`, or contains the
literal substring `none`. -/
theorem schedFind_some {l m : List Char} (h : schedFind l = some m) :
    (∃ pre run post, l = pre ++ run ++ ']' :: post ∧ run ≠ [] ∧
      ∀ c ∈ run, schedClassChar c = true)
    ∨ (∃ pre post, l = pre ++ "none".data ++ post) := by
  induction l with
  | nil => cases h
  | cons c cs ih =>
    rw [schedFind] at h
    cases hma : schedMatchAt (c :: cs) with
    | some m' =>
      rcases schedMatchAt_some hma with ⟨run, post, hd, hne, hcl⟩ | ⟨post, hd⟩
      · exact Or.inl ⟨[], run, post, by rw [List.nil_append, hd], hne, hcl⟩
      · exact Or.inr ⟨[], post, by rw [List.nil_append, hd]⟩
    | none =>
      rw [hma] at h
      rcases ih h with ⟨pre, run, post, hd, hne, hcl⟩ | ⟨pre, post, hd⟩
      · refine Or.inl ⟨c :: pre, run, post, ?_, hne, hcl⟩
        rw [List.cons_append, List.cons_append, ← hd]
      · refine Or.inr ⟨c :: pre, post, ?_⟩
        rw [List.cons_append, List.cons_append, ← hd]

/-- C6 counterexample: the first line `abc]` contains no bracket-delimited
token (there is no `[` at all) and not the literal `none`, yet
`getDeviceScheduler` does not return an error — it returns `abc` — because
the compiled pattern `[[a-z-]+]|none` treats `[` as an ordinary member of
the character class rather than requiring a bracket-delimited token. -/
theorem C6_counterexample :
    (¬ ∃ pre mid post, ("abc]").data = pre ++ '[' :: mid ++ ']' :: post)
    ∧ (¬ ∃ pre post, ("abc]").data = pre ++ "none".data ++ post)
    ∧ getDeviceScheduler fsAbc "/sys/block/sda" = .ok "abc" := by
  refine ⟨?_, ?_, by rfl⟩
  · rintro ⟨pre, mid, post, h⟩
    have hmem : '[' ∈ pre ++ '[' :: mid ++ ']' :: post :=
      List.mem_append.mpr (Or.inl (List.mem_append.mpr
        (Or.inr (List.mem_cons_self _ _))))
    rw [← h] at hmem
    exact absurd hmem (by decide)
  · rintro ⟨pre, post, h⟩
    have hmem : 'n' ∈ (pre ++ "none".data) ++ post :=
      List.mem_append.mpr (Or.inl (List.mem_append.mpr (Or.inr (by decide))))
    rw [← h] at hmem
    exact absurd hmem (by decide)

/-- C6 (amended): `noop [mq-deadline] kyber` extracts `mq-deadline` and
`none` extracts `none`; and for any first line in which no nonempty run of
characters from the class `[`, `a`–`z`, `-` is immediately followed by `]`
and which does not contain the literal substring `none`, the reader
returns an error. -/
theorem C6_scheduler_extraction (fs : String → Option String)
    (devpath : String) :
    (fs (devpath ++ "/queue/scheduler") = some "noop [mq-deadline] kyber" →
      getDeviceScheduler fs devpath = .ok "mq-deadline")
    ∧ (fs (devpath ++ "/queue/scheduler") = some "none" →
      getDeviceScheduler fs devpath = .ok "none")
    ∧ (∀ content line, fs (devpath ++ "/queue/scheduler") = some content →
        firstLine? content = some line →
        (¬ ∃ pre run post, line.data = pre ++ run ++ ']' :: post ∧ run ≠ [] ∧
          ∀ c ∈ run, schedClassChar c = true) →
        (¬ ∃ pre post, line.data = pre ++ "none".data ++ post) →
        getDeviceScheduler fs devpath =
          .error ("unknown scheduler: " ++ line)) := by
  refine ⟨?_, ?_, ?_⟩
  · intro h
    unfold getDeviceScheduler
    rw [h]
    rfl
  · intro h
    unfold getDeviceScheduler
    rw [h]
    rfl
  · intro content line hfs hfl hna hnn
    have hsf : schedFind line.data = none := by
      cases hsf : schedFind line.data with
      | none => rfl
      | some m =>
        rcases schedFind_some hsf with ⟨pre, run, post, hd, hne, hcl⟩ | ⟨pre, post, hd⟩
        · exact absurd ⟨pre, run, post, hd, hne, hcl⟩ hna
        · exact absurd ⟨pre, post, hd⟩ hnn
    simp only [getDeviceScheduler, hfs, hfl, hsf]

/-- Witness for the amended C6: the two concrete extractions, and the error
on the line `foo bar` (no class-run before a `]`, no `none`). -/
theorem C6_scheduler_extraction_witness :
    getDeviceScheduler
      (fun p => if p = "/sys/block/sda/queue/scheduler"
        then some "noop [mq-deadline] kyber" else none) "/sys/block/sda" =
      .ok "mq-deadline"
    ∧ getDeviceScheduler
      (fun p => if p = "/sys/block/sdb/queue/scheduler"
        then some "none" else none) "/sys/block/sdb" = .ok "none"
    ∧ getDeviceScheduler
      (fun p => if p = "/sys/block/sdc/queue/scheduler"
        then some "FOO BAR" else none) "/sys/block/sdc" =
      .error ("unknown scheduler: " ++ "FOO BAR") := by
  refine ⟨(C6_scheduler_extraction _ "/sys/block/sda").1 (by rfl),
          (C6_scheduler_extraction _ "/sys/block/sdb").2.1 (by rfl),
          (C6_scheduler_extraction _ "/sys/block/sdc").2.2 "FOO BAR" "FOO BAR"
            (by rfl) (by rfl) ?_ ?_⟩
  · rintro ⟨pre, run, post, hd, hne, hcl⟩
    have hcb : ']' ∈ (pre ++ run) ++ ']' :: post :=
      List.mem_append.mpr (Or.inr (List.mem_cons_self _ _))
    rw [← hd] at hcb
    exact absurd hcb (by decide)
  · rintro ⟨pre, post, hd⟩
    have hmem : 'n' ∈ (pre ++ "none".data) ++ post :=
      List.mem_append.mpr (Or.inl (List.mem_append.mpr (Or.inr (by decide))))
    rw [← hd] at hmem
    exact absurd hmem (by decide)

/-- C7: per-device partial-failure semantics of the property walk.  A
rotational first line other than `0`/`1` makes the rotational reader fail;
a device whose rotational or scheduler reader fails is absent from the
property sequence (device names assumed pairwise distinct across the
globbed directories, as `/sys/block` guarantees); every non-excluded
device with both attributes valid is present; the walk itself never
errors. -/
theorem C7_per_device_skip (dirs : List String) (ign : Option (String → Bool))
    (fs : String → Option String)
    (hnd : (dirs.map lastComponent).Nodup) (devpath : String)
    (hmem : devpath ∈ dirs) :
    (∀ content line, fs (devpath ++ "/queue/rotational") = some content →
        firstLine? content = some line → line ≠ "0" → line ≠ "1" →
        ∀ r, getDeviceRotational fs devpath ≠ .ok r)
    ∧ (((∀ r, getDeviceRotational fs devpath ≠ .ok r) ∨
        (∀ s, getDeviceScheduler fs devpath ≠ .ok s)) →
        lastComponent devpath ∉
          (collectStorages ign fs dirs).map storageDeviceProperties.device)
    ∧ (matchOpt ign (lastComponent devpath) = false →
        ∀ rot sched, getDeviceRotational fs devpath = .ok rot →
        getDeviceScheduler fs devpath = .ok sched →
        ({ device := lastComponent devpath, rotational := rot,
           scheduler := sched } : storageDeviceProperties) ∈
          collectStorages ign fs dirs)
    ∧ (∃ props, getStorageProperties (.ok dirs) ign fs = .ok props) := by
  refine ⟨?_, ?_, ?_, ⟨collectStorages ign fs dirs, rfl⟩⟩
  · intro content line hc hl h0 h1 r hok
    simp only [getDeviceRotational, hc, hl] at hok
    rw [if_neg (fun hor => hor.elim h0 h1)] at hok
    cases hok
  · intro hfail hinmap
    rcases List.mem_map.mp hinmap with ⟨p, hp, hpd⟩
    rcases collectStorages_mem ign fs dirs p hp with
      ⟨dp, hdp, hdev, _, hrot, hsched⟩
    have hdpe : dp = devpath :=
      List.inj_on_of_nodup_map hnd hdp hmem (by rw [← hdev, hpd])
    subst hdpe
    rcases hfail with hf | hf
    · exact hf p.rotational hrot
    · exact hf p.scheduler hsched
  · intro hnm rot sched hrot hsched
    exact collectStorages_mem_of ign fs dirs devpath hmem hnm rot sched hrot hsched

/-- Witness for C7: `sda` (rotational `bad`) is dropped while `sdb` stays. -/
theorem C7_per_device_skip_witness :
    "sda" ∉ (collectStorages (some matchString) fsMix
        ["/sys/block/sda", "/sys/block/sdb"]).map storageDeviceProperties.device
    ∧ ({ device := "sdb", rotational := "0",
         scheduler := "none" } : storageDeviceProperties) ∈
        collectStorages (some matchString) fsMix
          ["/sys/block/sda", "/sys/block/sdb"] := by
  constructor
  · refine (C7_per_device_skip ["/sys/block/sda", "/sys/block/sdb"]
      (some matchString) fsMix (by decide) "/sys/block/sda"
      (List.mem_cons_self _ _)).2.1 (Or.inl ?_)
    intro r hok
    rw [show getDeviceRotational fsMix "/sys/block/sda" =
      .error "unknown rotational bad" from rfl] at hok
    cases hok
  · exact (C7_per_device_skip ["/sys/block/sda", "/sys/block/sdb"]
      (some matchString) fsMix (by decide) "/sys/block/sdb"
      (by decide)).2.2.1 (by decide) "0" "none" (by rfl) (by rfl)
